import Mathlib

/-!
Verification of the ibind REST service against its specification.

The development shallowly embeds the relevant parts of the Python source:

* `src/ibind/rest_service.py` — the WebSocket connection registry
  (`_connections : Set[WebSocket]`), the broadcast fan-out `_broadcast`,
  and the event emitter `_send_event`;
* `src/ibind/service/config.py` — `RateLimitMiddleware.dispatch` and the
  `retry_on_failure` decorator;
* `src/ibind/service/enhanced_main.py` — the `generate_market_data`
  streaming generator of `/stream/market-data/{conid}`.

Machine details are abstracted in the usual way: WebSocket handles are
identified by a natural-number id, JSON-encoded values by naturals, wall
clock timestamps by integers (seconds), and a send / fetch that may raise
is an `Except`-valued outcome.
-/

/-- A WebSocket connection handle, identified by id (one `WebSocket` object
in `rest_service.py`). -/
structure Handle where
  id : Nat
deriving DecidableEq

/-- `_connections.add(ws)` — Python `set.add`: no effect when the element is
already present, otherwise the element is inserted.  The registry set is
modelled as a duplicate-free list in insertion order. -/
def addConn (conns : List Handle) (h : Handle) : List Handle :=
  if h ∈ conns then conns else conns ++ [h]

/-- `_connections.discard(ws)` — Python `set.discard`: removes the element
when present, no error when absent. -/
def discardConn (conns : List Handle) (h : Handle) : List Handle :=
  conns.filter (fun x => x ≠ h)

/-- The event envelope built by `_send_event` (rest_service.py line 46):
`{'time': …, 'endpoint': …, 'data': …, 'req': …}`.  The formatted timestamp
and the JSON-encoded payloads are abstracted to naturals. -/
structure Envelope where
  time : Nat
  endpoint : String
  data : Nat
  req : Option Nat
deriving DecidableEq

/-- A registry mutation performed by a concurrently running coroutine
(`websocket_feed`: `_connections.add(ws)` on accept, `_connections.discard(ws)`
on disconnect) during one `await ws.send_json(...)` suspension point of the
broadcast loop; `none` when no mutation interleaves there. -/
inductive MidEvent
  | none
  | add (h : Handle)
  | remove (h : Handle)
deriving DecidableEq

/-- Apply one interleaved registry mutation. -/
def applyMid (conns : List Handle) : MidEvent → List Handle
  | MidEvent.none => conns
  | MidEvent.add h => addConn conns h
  | MidEvent.remove h => discardConn conns h

/-- Pop the next interleaved mutation from the schedule (no mutation when
the schedule is exhausted). -/
def nextMid : List MidEvent → MidEvent × List MidEvent
  | [] => (MidEvent.none, [])
  | m :: ms => (m, ms)

/-- Observable outcome of one `_broadcast` call that ran to completion. -/
structure BroadcastResult where
  /-- handles whose `ws.send_json(message)` succeeded, with the message,
  in the order the loop reached them -/
  delivered : List (Handle × Envelope)
  /-- handles whose send raised; the exception is printed to stderr
  (rest_service.py lines 36–39) and nothing else happens -/
  logged : List Handle
  /-- registry contents when `_broadcast` returns -/
  conns : List Handle
deriving DecidableEq

/-- The loop of `_broadcast` (rest_service.py lines 30–42) iterating the
live set `_connections`.  CPython's set iterator compares the set's size
against the size recorded at iterator creation on every `__next__` call —
including the final, exhausting one — and raises
`RuntimeError: Set changed size during iteration` on mismatch.  Arguments:
`env` the message, `fails ws` whether `ws.send_json` raises for `ws`, `n0`
the size at iterator creation, `cur` the current live registry, `pending`
the elements the iterator has yet to visit, `mids` the schedule of
mutations interleaving at the `await` suspension points, `delivered` and
`logged` the accumulators.  On completion the loop
`for ws in dead: _connections.discard(ws)` runs with `dead = []`, since the
sole `dead.append(ws)` statement is commented out (line 40). -/
def broadcastAux (env : Envelope) (fails : Handle → Bool) (n0 : Nat) :
    List Handle → List Handle → List MidEvent →
    List (Handle × Envelope) → List Handle → Except String BroadcastResult
  | cur, [], _, delivered, logged =>
      if cur.length ≠ n0 then Except.error "Set changed size during iteration"
      else Except.ok ⟨delivered, logged, List.foldl discardConn cur ([] : List Handle)⟩
  | cur, ws :: pending, mids, delivered, logged =>
      if cur.length ≠ n0 then Except.error "Set changed size during iteration"
      else
        let acc := if fails ws then (delivered, logged ++ [ws])
                   else (delivered ++ [(ws, env)], logged)
        let step := nextMid mids
        broadcastAux env fails n0 (applyMid cur step.1) pending step.2 acc.1 acc.2

/-- `_broadcast(message)` (rest_service.py lines 30–42): iterate the live
registry `conns`, awaiting each send in turn; `mids` schedules the registry
mutations arriving at the suspension points. -/
def broadcast (env : Envelope) (fails : Handle → Bool) (conns : List Handle)
    (mids : List MidEvent) : Except String BroadcastResult :=
  broadcastAux env fails conns.length conns conns mids [] []

/-- No registry mutation interleaves with the broadcast. -/
def NoMut (mids : List MidEvent) : Prop :=
  ∀ m ∈ mids, m = MidEvent.none

instance : DecidablePred NoMut := fun mids =>
  inferInstanceAs (Decidable (∀ m ∈ mids, m = MidEvent.none))

/-- Payload handed to `_send_event`: either a value `jsonable_encoder` can
convert, or one on which it raises (e.g. an unconvertible native object). -/
inductive Payload
  | jsonSafe (v : Nat)
  | unconvertible
deriving DecidableEq

/-- `fastapi.encoders.jsonable_encoder`: converts a convertible payload,
raises on an unconvertible one. -/
def jsonable_encoder : Payload → Except String Nat
  | Payload.jsonSafe v => Except.ok v
  | Payload.unconvertible => Except.error "ValueError: Object not JSON serializable"

/-- Encoding of the optional `req` field of `_send_event`
(`jsonable_encoder(req) if req is not None else None`). -/
def encodeReq : Option Payload → Except String (Option Nat)
  | Option.none => Except.ok Option.none
  | Option.some q => (jsonable_encoder q).map Option.some

/-- `_send_event(endpoint, data, req)` (rest_service.py lines 45–46): stamp
the current time, build the envelope dict — evaluating `jsonable_encoder`
on `data` and then on `req` with no `try`/`except` around either, so an
encoding failure propagates to the caller before `_broadcast` is reached —
then await `_broadcast` on it.  The first component of the result records
the envelopes passed to `_broadcast`, in order; the second is the call's
outcome. -/
def send_event (now : Nat) (endpoint : String) (data : Payload)
    (req : Option Payload) (fails : Handle → Bool) (conns : List Handle)
    (mids : List MidEvent) : List Envelope × Except String BroadcastResult :=
  match jsonable_encoder data with
  | Except.error e => ([], Except.error e)
  | Except.ok d =>
      match encodeReq req with
      | Except.error e => ([], Except.error e)
      | Except.ok r =>
          let env : Envelope := ⟨now, endpoint, d, r⟩
          ([env], broadcast env fails conns mids)

/-! ### Timed view of the broadcast loop

For the temporal claim about fan-out, the same loop of `_broadcast` is
embedded with explicit time: `await ws.send_json(message)` for handle `ws`
occupies `dur ws` time units, and — the loop being a plain sequential
`for` with an `await` of each send to completion — the next send starts
only when the previous one finished.  There is no timeout anywhere in
`_broadcast`. -/

/-- Sequential timing of the `for ws in _connections: await ws.send_json`
loop: starting at time `t`, each handle is paired with the time its send
completes. -/
def broadcastTimedAux (dur : Handle → Nat) : List Handle → Nat → List (Handle × Nat)
  | [], _ => []
  | ws :: rest, t => (ws, t + dur ws) :: broadcastTimedAux dur rest (t + dur ws)

/-- Timed run of `_broadcast` over registry `conns`, starting at time 0. -/
def broadcastTimed (dur : Handle → Nat) (conns : List Handle) : List (Handle × Nat) :=
  broadcastTimedAux dur conns 0

/-- Time at which the broadcast's delivery to `h` completes (0 when `h` is
not in the registry). -/
def completionTime (dur : Handle → Nat) (conns : List Handle) (h : Handle) : Nat :=
  ((broadcastTimed dur conns).lookup h).getD 0

/-- Durations for a two-handle registry in which the first handle's send
takes `d` time units and the second handle's send takes 1. -/
def blockingFirst (d : Nat) : Handle → Nat :=
  fun h => if h = ⟨0⟩ then d else 1

/-! ### Rate limiter (`RateLimitMiddleware.dispatch`, config.py lines 102–122)

The per-identity window `self.requests[client_ip]` is a deque of admission
timestamps; `defaultdict(deque)` makes the absent case the empty deque.
`time.time()` timestamps are modelled as integer seconds. -/

/-- The eviction loop
`while self.requests[ip] and self.requests[ip][0] < minute_ago: popleft()`:
pop from the front while the front is strictly older than the cutoff. -/
def evictOld : List Int → Int → List Int
  | [], _ => []
  | t :: rest, cutoff => if t < cutoff then evictOld rest cutoff else t :: rest

/-- Outcome of one admission check: whether the request was admitted
(rejection returns the 429 response) and the identity's window afterwards. -/
structure DispatchResult where
  admitted : Bool
  queue : List Int
deriving DecidableEq

/-- `RateLimitMiddleware.dispatch` for one identity: evict entries older
than `now − 60`; if at least `limit` remain, reject without recording;
otherwise append `now` and admit. -/
def rateLimitDispatch (limit : Nat) (q : List Int) (now : Int) : DispatchResult :=
  let q2 := evictOld q (now - 60)
  if limit ≤ q2.length then ⟨false, q2⟩
  else ⟨true, q2 ++ [now]⟩

/-- Run a sequence of admission checks for one identity at the given call
times, threading the window; returns the admission decisions in order and
the final window. -/
def runCalls (limit : Nat) : List Int → List Int → List Bool × List Int
  | q, [] => ([], q)
  | q, t :: ts =>
      let r := rateLimitDispatch limit q t
      let rest := runCalls limit r.queue ts
      (r.admitted :: rest.1, rest.2)

/-! ### Resilient-call wrapper (`retry_on_failure`, config.py lines 223–247)

The wrapped operation is an attempt-indexed outcome `op : Nat → Except E A`
(attempt `i` is the body of iteration `i` of
`for attempt in range(max_retries + 1)`).  The embedding returns the
overall outcome together with the number of attempts performed and the
number of `await asyncio.sleep(delay)` waits performed — a wait separates
every pair of consecutive attempts and nothing else. -/

def retryFrom {E A : Type} (op : Nat → Except E A) :
    Nat → Nat → Except E A × Nat × Nat
  | attempt, 0 =>
      match op attempt with
      | Except.ok a => (Except.ok a, 1, 0)
      | Except.error e => (Except.error e, 1, 0)
  | attempt, Nat.succ r =>
      match op attempt with
      | Except.ok a => (Except.ok a, 1, 0)
      | Except.error _ =>
          let rest := retryFrom op (attempt + 1) r
          (rest.1, rest.2.1 + 1, rest.2.2 + 1)

/-- `retry_on_failure(max_retries, delay)` applied to `op`: attempts start
at index 0; on failure of a non-final attempt the wrapper sleeps and
retries; the failure of the final attempt is re-raised unchanged
(`raise last_exception`). -/
def retry_on_failure {E A : Type} (maxRetries : Nat) (op : Nat → Except E A) :
    Except E A × Nat × Nat :=
  retryFrom op 0 maxRetries

/-- Total time spent waiting between attempts, for inter-attempt delay `d`:
`d` times the number of sleeps performed. -/
def retryTotalDelay {E A : Type} (maxRetries : Nat) (op : Nat → Except E A)
    (d : Nat) : Nat :=
  d * (retry_on_failure maxRetries op).2.2

/-! ### Streaming session (`generate_market_data`, enhanced_main.py lines 500–531)

One loop iteration of the generator: the `try` body fetches a snapshot
(`client.live_marketdata_snapshot([conid], field_list)`), takes
`result.data[0] if result.data else {}`, yields one data event and sleeps
5 seconds; the `except` arm yields one error-marker event and sleeps 10
seconds.  The fetch outcome of cycle `k` is `fetch k`: `Except.ok rows`
when the snapshot call returns row list `rows`, `Except.error e` when it
raises `e`. -/

/-- An event the generator yields to its single consumer. -/
inductive StreamEvent
  | data (d : Option Nat)
  | errorMarker (e : Nat)
deriving DecidableEq

/-- One cycle of the `while True` loop: the event yielded and the sleep
that follows it. -/
def streamCycle (fetch : Nat → Except Nat (List Nat)) (k : Nat) : StreamEvent × Nat :=
  match fetch k with
  | Except.ok rows => (StreamEvent.data rows.head?, 5)
  | Except.error e => (StreamEvent.errorMarker e, 10)

/-- Events yielded and sleeps performed by `n` consecutive cycles of the
loop starting at cycle index `start`.  The loop has no `break` or `return`:
the `except Exception` arm swallows every fetch failure, so every cycle
runs regardless of earlier outcomes. -/
def runStreamFrom (fetch : Nat → Except Nat (List Nat)) :
    Nat → Nat → List StreamEvent × List Nat
  | _, 0 => ([], [])
  | start, Nat.succ n =>
      let c := streamCycle fetch start
      let rest := runStreamFrom fetch (start + 1) n
      (c.1 :: rest.1, c.2 :: rest.2)

/-- The first `n` cycles of the streaming loop. -/
def runStream (fetch : Nat → Except Nat (List Nat)) (n : Nat) :
    List StreamEvent × List Nat :=
  runStreamFrom fetch 0 n

/-- The whole generator body: `client.receive_brokerage_accounts()` runs
before the `while True` loop and outside any `try` (enhanced_main.py line
505), so when it raises the generator terminates before yielding anything
and the exception propagates; otherwise the loop runs.  Result: the events
yielded over the first `n` cycles, and `Option.some e` when the generator
ended by raising `e` during setup. -/
def generate_market_data (setup : Except Nat Unit)
    (fetch : Nat → Except Nat (List Nat)) (n : Nat) :
    List StreamEvent × Option Nat :=
  match setup with
  | Except.error e => ([], Option.some e)
  | Except.ok _ => ((runStream fetch n).1, Option.none)

/-! ## Helper lemmas -/

/-- On a chronologically ordered window, the front-eviction loop removes
exactly the entries strictly older than the cutoff. -/
theorem evictOld_sorted_eq_filter (cutoff : Int) :
    ∀ l : List Int, l.Sorted (· ≤ ·) →
      evictOld l cutoff = l.filter (fun t => decide (cutoff ≤ t)) := by
  intro l hl
  induction l with
  | nil => simp [evictOld]
  | cons t rest ih =>
      rw [List.sorted_cons] at hl
      by_cases hlt : t < cutoff
      · have ht : decide (cutoff ≤ t) = false := by
          simp [not_le.mpr hlt]
        simp only [evictOld, if_pos hlt, List.filter_cons, ht]
        exact ih hl.2
      · have hct : cutoff ≤ t := not_lt.mp hlt
        have hrest : rest.filter (fun x => decide (cutoff ≤ x)) = rest :=
          List.filter_eq_self.mpr (fun x hx => by
            simp only [decide_eq_true_eq]
            exact hct.trans (hl.1 x hx))
        simp only [evictOld, if_neg hlt, List.filter_cons]
        simp [hct, hrest]

theorem retryFrom_ok {E A : Type} (op : Nat → Except E A) (a r : Nat) (v : A)
    (h : op a = Except.ok v) : retryFrom op a r = (Except.ok v, 1, 0) := by
  cases r <;> simp [retryFrom, h]

theorem retryFrom_attempts_le {E A : Type} (op : Nat → Except E A) :
    ∀ r a, (retryFrom op a r).2.1 ≤ r + 1 := by
  intro r
  induction r with
  | zero =>
      intro a
      cases h : op a <;> simp [retryFrom, h]
  | succ r ih =>
      intro a
      cases h : op a with
      | ok v => simp [retryFrom, h]
      | error e =>
          simp only [retryFrom, h]
          exact Nat.succ_le_succ (ih (a + 1))

theorem retryFrom_attempts_eq_sleeps_succ {E A : Type} (op : Nat → Except E A) :
    ∀ r a, (retryFrom op a r).2.1 = (retryFrom op a r).2.2 + 1 := by
  intro r
  induction r with
  | zero =>
      intro a
      cases h : op a <;> simp [retryFrom, h]
  | succ r ih =>
      intro a
      cases h : op a with
      | ok v => simp [retryFrom, h]
      | error e =>
          simp only [retryFrom, h]
          exact congrArg (· + 1) (ih (a + 1))

theorem retryFrom_first_success {E A : Type} (op : Nat → Except E A) :
    ∀ (k : Nat) (a r : Nat) (v : A),
      (∀ i, i < k → ∃ e, op (a + i) = Except.error e) →
      op (a + k) = Except.ok v → k ≤ r →
      retryFrom op a r = (Except.ok v, k + 1, k) := by
  intro k
  induction k with
  | zero =>
      intro a r v _ hok _
      exact retryFrom_ok op a r v hok
  | succ k ih =>
      intro a r v hfail hok hkr
      obtain ⟨e, he⟩ := hfail 0 (Nat.succ_pos k)
      rw [Nat.add_zero] at he
      obtain ⟨r2, rfl⟩ : ∃ r2, r = r2 + 1 :=
        ⟨r - 1, by omega⟩
      have hrec := ih (a + 1) r2 v
        (fun i hi => by
          have := hfail (i + 1) (Nat.succ_lt_succ hi)
          rwa [show a + (i + 1) = a + 1 + i by omega] at this)
        (by rwa [show a + 1 + k = a + (k + 1) by omega])
        (by omega)
      simp [retryFrom, he, hrec]

theorem retryFrom_all_fail {E A : Type} (op : Nat → Except E A) :
    ∀ (r a : Nat) (e : E),
      (∀ i, i < r → ∃ e2, op (a + i) = Except.error e2) →
      op (a + r) = Except.error e →
      retryFrom op a r = (Except.error e, r + 1, r) := by
  intro r
  induction r with
  | zero =>
      intro a e _ hlast
      rw [Nat.add_zero] at hlast
      simp [retryFrom, hlast]
  | succ r ih =>
      intro a e hfail hlast
      obtain ⟨e0, he0⟩ := hfail 0 (Nat.succ_pos r)
      rw [Nat.add_zero] at he0
      have hrec := ih (a + 1) e
        (fun i hi => by
          have := hfail (i + 1) (Nat.succ_lt_succ hi)
          rwa [show a + (i + 1) = a + 1 + i by omega] at this)
        (by rwa [show a + 1 + r = a + (r + 1) by omega])
      simp [retryFrom, he0, hrec]

/-- With no interleaved registry mutation, the broadcast loop runs to
completion: deliveries and logged failures follow the iteration order, and
the registry it returns with is the one it started with. -/
theorem broadcastAux_noMut (env : Envelope) (fails : Handle → Bool) (n0 : Nat) :
    ∀ (pending cur : List Handle) (mids : List MidEvent)
      (delivered : List (Handle × Envelope)) (logged : List Handle),
      NoMut mids → cur.length = n0 →
      broadcastAux env fails n0 cur pending mids delivered logged =
        Except.ok ⟨delivered ++ pending.filterMap
            (fun ws => if fails ws then Option.none else Option.some (ws, env)),
          logged ++ pending.filter (fun ws => fails ws), cur⟩ := by
  intro pending
  induction pending with
  | nil =>
      intro cur mids delivered logged _ hlen
      simp [broadcastAux, hlen]
  | cons ws rest ih =>
      intro cur mids delivered logged hmut hlen
      have hstep : (nextMid mids).1 = MidEvent.none ∧ NoMut (nextMid mids).2 := by
        cases mids with
        | nil => exact ⟨rfl, fun m hm => absurd hm (List.not_mem_nil m)⟩
        | cons m ms =>
            exact ⟨hmut m (List.mem_cons_self m ms),
                   fun x hx => hmut x (List.mem_cons_of_mem m hx)⟩
      cases hf : fails ws
      · simp [broadcastAux, hlen, hstep.1, applyMid, hf]
        rw [ih cur (nextMid mids).2 _ _ hstep.2 hlen]
        simp
      · simp [broadcastAux, hlen, hstep.1, applyMid, hf]
        rw [ih cur (nextMid mids).2 _ _ hstep.2 hlen]
        simp

/-- `_broadcast` with no interleaved registry mutation, in closed form. -/
theorem broadcast_noMut (env : Envelope) (fails : Handle → Bool)
    (conns : List Handle) (mids : List MidEvent) (hm : NoMut mids) :
    broadcast env fails conns mids =
      Except.ok ⟨conns.filterMap
          (fun ws => if fails ws then Option.none else Option.some (ws, env)),
        conns.filter (fun ws => fails ws), conns⟩ := by
  simpa [broadcast] using
    broadcastAux_noMut env fails conns.length conns conns mids [] [] hm rfl

/-- Completion times of the sequential send loop: the handle at a given
position completes at the start time plus the durations of all handles
before it plus its own. -/
theorem broadcastTimedAux_lookup (dur : Handle → Nat) (h : Handle)
    (post : List Handle) :
    ∀ (pre : List Handle) (t : Nat), h ∉ pre →
      (broadcastTimedAux dur (pre ++ h :: post) t).lookup h =
        Option.some (t + ((pre.map dur).sum + dur h)) := by
  intro pre
  induction pre with
  | nil =>
      intro t _
      simp [broadcastTimedAux, List.lookup]
  | cons p pre ih =>
      intro t hnot
      simp only [List.mem_cons, not_or] at hnot
      have hne : (h == p) = false := beq_eq_false_iff_ne.mpr hnot.1
      simp only [List.cons_append, broadcastTimedAux, List.lookup, hne,
                 List.append_eq]
      rw [ih (t + dur p) hnot.2]
      congr 1
      simp only [List.map_cons, List.sum_cons]
      omega

/-- Every cycle of the streaming loop yields exactly one event and sleeps
exactly once, whatever the fetch outcomes. -/
theorem runStreamFrom_length (fetch : Nat → Except Nat (List Nat)) :
    ∀ (n start : Nat), (runStreamFrom fetch start n).1.length = n ∧
      (runStreamFrom fetch start n).2.length = n := by
  intro n
  induction n with
  | zero => intro start; simp [runStreamFrom]
  | succ n ih =>
      intro start
      simp [runStreamFrom, (ih (start + 1)).1, (ih (start + 1)).2]

/-! ## The claims -/

/-- C4: `RateLimitMiddleware.dispatch` implements a strict sliding window.
On a chronologically ordered window the check first evicts every timestamp
older than `now − 60`; if at least `limit` entries remain it rejects
without recording the attempt, otherwise it appends `now` and admits.
Consequently with `limit = 100`: 100 calls at times `0,0,1,1,…,49,49`
(all inside one 60-second window) are all admitted; the 101st call at
time 59, inside that same trailing window, is rejected; and a call at
time 61 — more than 60 seconds after the first admitted call — is
admitted again, even though 98 of the 100 timestamps are still inside the
window (sliding eviction, not a periodic bucket reset). -/
theorem rate_limit_sliding_window :
    (∀ (q : List Int) (now : Int), q.Sorted (· ≤ ·) →
        evictOld q (now - 60) = q.filter (fun t => decide (now - 60 ≤ t))) ∧
    (∀ (q : List Int) (now : Int) (limit : Nat),
        (limit ≤ (evictOld q (now - 60)).length →
          rateLimitDispatch limit q now = ⟨false, evictOld q (now - 60)⟩) ∧
        ((evictOld q (now - 60)).length < limit →
          rateLimitDispatch limit q now =
            ⟨true, evictOld q (now - 60) ++ [now]⟩)) ∧
    (runCalls 100 [] ((List.range 100).map (fun i => ((i / 2 : Nat) : Int))) =
        (List.replicate 100 true,
         (List.range 100).map (fun i => ((i / 2 : Nat) : Int)))) ∧
    (rateLimitDispatch 100
        ((List.range 100).map (fun i => ((i / 2 : Nat) : Int))) 59 =
      ⟨false, (List.range 100).map (fun i => ((i / 2 : Nat) : Int))⟩) ∧
    ((rateLimitDispatch 100
        ((List.range 100).map (fun i => ((i / 2 : Nat) : Int))) 61).admitted
      = true) := by
  refine ⟨fun q now h => evictOld_sorted_eq_filter (now - 60) q h,
          fun q now limit => ⟨fun hge => ?_, fun hlt => ?_⟩, ?_, ?_, ?_⟩
  · simp [rateLimitDispatch, hge]
  · simp [rateLimitDispatch, Nat.not_le.mpr hlt]
  · set_option maxRecDepth 40000 in decide
  · set_option maxRecDepth 40000 in decide
  · set_option maxRecDepth 40000 in decide

/-- C4 witness: the sliding-window theorem applied at concrete inputs,
discharging the sortedness and the threshold hypotheses. -/
theorem rate_limit_sliding_window_witness :
    evictOld [(0 : Int), 61] (61 - 60) = [(61 : Int)] ∧
    rateLimitDispatch 1 [(5 : Int)] 10 = ⟨false, [(5 : Int)]⟩ ∧
    rateLimitDispatch 2 [(5 : Int)] 10 = ⟨true, [(5 : Int), 10]⟩ := by
  refine ⟨?_, ?_, ?_⟩
  · have h := rate_limit_sliding_window.1 [(0 : Int), 61] 61 (by decide)
    simpa using h
  · have h := (rate_limit_sliding_window.2.1 [(5 : Int)] 10 1).1 (by decide)
    simpa using h
  · have h := (rate_limit_sliding_window.2.1 [(5 : Int)] 10 2).2 (by decide)
    simpa using h

/-- C6: `retry_on_failure(max_retries = m, delay = d)` performs at most
`m + 1` attempts with exactly one fixed-length wait between each pair of
consecutive attempts (total wait `d * (attempts − 1)`); it returns the
result of the first attempt that succeeds (attempts 0‥k−1 failing and
attempt `k ≤ m` succeeding yields attempt `k`'s result after `k + 1`
attempts — with `m = 3`, failures on the first two attempts and success on
the third yield the third attempt's result); and when all `m + 1` attempts
fail it re-raises the final attempt's failure unchanged. -/
theorem retry_on_failure_contract :
    (∀ (E A : Type) (op : Nat → Except E A) (m : Nat),
        (retry_on_failure m op).2.1 ≤ m + 1) ∧
    (∀ (E A : Type) (op : Nat → Except E A) (m d : Nat),
        retryTotalDelay m op d = d * ((retry_on_failure m op).2.1 - 1)) ∧
    (∀ (E A : Type) (op : Nat → Except E A) (m k : Nat) (v : A),
        (∀ i, i < k → ∃ e, op i = Except.error e) → op k = Except.ok v →
        k ≤ m → retry_on_failure m op = (Except.ok v, k + 1, k)) ∧
    (∀ (E A : Type) (op : Nat → Except E A) (m : Nat) (e : E),
        (∀ i, i < m → ∃ e2, op i = Except.error e2) →
        op m = Except.error e →
        retry_on_failure m op = (Except.error e, m + 1, m)) := by
  refine ⟨fun E A op m => retryFrom_attempts_le op m 0,
          fun E A op m d => ?_, fun E A op m k v hf hok hkm => ?_,
          fun E A op m e hf hlast => ?_⟩
  · rw [retryTotalDelay, retry_on_failure,
        retryFrom_attempts_eq_sleeps_succ op m 0]
    simp [retry_on_failure]
  · rw [retry_on_failure]
    exact retryFrom_first_success op k 0 m v
      (fun i hi => by simpa using hf i hi) (by simpa using hok) hkm
  · rw [retry_on_failure]
    exact retryFrom_all_fail op m 0 e
      (fun i hi => by simpa using hf i hi) (by simpa using hlast)

/-- C6 witness: with `max_retries = 3`, an operation failing on the first
two attempts and succeeding on the third returns the third attempt's
result after 3 attempts and 2 waits, and an operation failing on all four
attempts re-raises the fourth attempt's error after 4 attempts. -/
theorem retry_on_failure_contract_witness :
    retry_on_failure 3
        (fun i => if i < 2 then (Except.error i : Except Nat Nat)
                  else Except.ok (i * 10)) = (Except.ok 20, 3, 2) ∧
    retry_on_failure 3 (fun i => (Except.error i : Except Nat Nat)) =
        (Except.error 3, 4, 3) := by
  constructor
  · exact retry_on_failure_contract.2.2.1 Nat Nat _ 3 2 20
      (fun i hi => ⟨i, by simp [hi]⟩) (by simp) (by decide)
  · exact retry_on_failure_contract.2.2.2 Nat Nat _ 3 3
      (fun i hi => ⟨i, rfl⟩) rfl

/-- C5: every cycle of the streaming loop emits exactly one event to the
consumer (`n` cycles yield `n` events and `n` sleeps, whatever the fetch
outcomes — a fetch failure never terminates the session); a cycle whose
fetch succeeds emits one data event and sleeps the short interval (5s); a
cycle whose fetch fails emits one error marker and sleeps the backoff
interval (10s), the next cycle evaluating its outcome fresh; and three
consecutive fetch failures yield exactly three error markers, zero data
events, and three 10s backoffs. -/
theorem streaming_cycle_behavior :
    (∀ (fetch : Nat → Except Nat (List Nat)) (n : Nat),
        (runStream fetch n).1.length = n ∧ (runStream fetch n).2.length = n) ∧
    (∀ (fetch : Nat → Except Nat (List Nat)) (k : Nat) (rows : List Nat),
        fetch k = Except.ok rows →
        runStreamFrom fetch k 1 = ([StreamEvent.data rows.head?], [5])) ∧
    (∀ (fetch : Nat → Except Nat (List Nat)) (k e : Nat),
        fetch k = Except.error e →
        runStreamFrom fetch k 1 = ([StreamEvent.errorMarker e], [10])) ∧
    (∀ (fetch : Nat → Except Nat (List Nat)) (k e0 e1 e2 : Nat),
        fetch k = Except.error e0 → fetch (k + 1) = Except.error e1 →
        fetch (k + 2) = Except.error e2 →
        runStreamFrom fetch k 3 =
          ([StreamEvent.errorMarker e0, StreamEvent.errorMarker e1,
            StreamEvent.errorMarker e2], [10, 10, 10])) := by
  refine ⟨fun fetch n => runStreamFrom_length fetch n 0,
          fun fetch k rows hok => ?_, fun fetch k e he => ?_,
          fun fetch k e0 e1 e2 h0 h1 h2 => ?_⟩
  · simp [runStreamFrom, streamCycle, hok]
  · simp [runStreamFrom, streamCycle, he]
  · simp [runStreamFrom, streamCycle, h0, h1, h2]

/-- C5 witness: the cycle-behaviour theorem applied to a session whose
fetches fail on cycles 0–2 and succeed afterwards. -/
theorem streaming_cycle_behavior_witness :
    runStreamFrom (fun k => if k < 3 then Except.error k else Except.ok [k]) 0 3 =
      ([StreamEvent.errorMarker 0, StreamEvent.errorMarker 1,
        StreamEvent.errorMarker 2], [10, 10, 10]) ∧
    runStreamFrom (fun k => if k < 3 then Except.error k else Except.ok [k]) 3 1 =
      ([StreamEvent.data (Option.some 3)], [5]) := by
  constructor
  · exact streaming_cycle_behavior.2.2.2 _ 0 0 1 2 rfl rfl rfl
  · have h := streaming_cycle_behavior.2.1
      (fun k => if k < 3 then Except.error k else Except.ok [k]) 3 [3] (by simp)
    simpa using h

/-- C10: the one-time setup call `client.receive_brokerage_accounts()` runs
inside the stream generator but before and outside the error-recovering
`while True` loop: when it raises, the stream terminates before emitting
any event and no inline error marker reaches the consumer; by contrast a
fetch failure inside the loop is converted to an inline error marker and
does not terminate the stream. -/
theorem stream_setup_failure_terminates :
    (∀ (e : Nat) (fetch : Nat → Except Nat (List Nat)) (n : Nat),
        generate_market_data (Except.error e) fetch n = ([], Option.some e)) ∧
    (∀ (fetch : Nat → Except Nat (List Nat)) (n f : Nat),
        fetch 0 = Except.error f →
        (generate_market_data (Except.ok ()) fetch (n + 1)).1.head? =
          Option.some (StreamEvent.errorMarker f) ∧
        (generate_market_data (Except.ok ()) fetch (n + 1)).2 = Option.none) := by
  refine ⟨fun e fetch n => rfl, fun fetch n f hf => ⟨?_, rfl⟩⟩
  simp [generate_market_data, runStream, runStreamFrom, streamCycle, hf]

/-- C10 witness: a failing setup call yields no events and propagates the
exception, while the same failure occurring as the first in-loop fetch
yields an inline error marker without terminating the stream. -/
theorem stream_setup_failure_terminates_witness :
    generate_market_data (Except.error 7) (fun _ => Except.ok [1]) 5 =
      ([], Option.some 7) ∧
    (generate_market_data (Except.ok ()) (fun _ => Except.error 7) 1).1.head? =
      Option.some (StreamEvent.errorMarker 7) := by
  exact ⟨stream_setup_failure_terminates.1 7 (fun _ => Except.ok [1]) 5,
         (stream_setup_failure_terminates.2 (fun _ => Except.error 7) 0 7 rfl).1⟩

/-- C7: `_broadcast` never raises to its caller.  For every envelope,
registry contents and per-handle send behaviour — including handles whose
individual `send_json` raises — the broadcast (absent concurrent registry
mutation) returns normally to the emitting action, the failing handles
being only logged. -/
theorem broadcast_never_raises :
    ∀ (env : Envelope) (fails : Handle → Bool) (conns : List Handle)
      (mids : List MidEvent), NoMut mids →
      ∃ r : BroadcastResult, broadcast env fails conns mids = Except.ok r ∧
        r.logged = conns.filter (fun ws => fails ws) := by
  intro env fails conns mids hm
  exact ⟨_, broadcast_noMut env fails conns mids hm, rfl⟩

/-- C7 witness: a broadcast to two handles, the first of whose sends
raises, returns normally with the failing handle only logged. -/
theorem broadcast_never_raises_witness :
    ∃ r : BroadcastResult,
      broadcast ⟨0, "startup", 0, Option.none⟩ (fun ws => ws.id == 0)
          [⟨0⟩, ⟨1⟩] [] = Except.ok r ∧
      r.logged = [⟨0⟩] := by
  obtain ⟨r, h1, h2⟩ := broadcast_never_raises ⟨0, "startup", 0, Option.none⟩
    (fun ws => ws.id == 0) [⟨0⟩, ⟨1⟩] [] (by decide)
  exact ⟨r, h1, by rw [h2]; decide⟩

/-- C8: under the implemented lenient policy a broadcast never mutates the
connection registry: for every broadcast (absent concurrent registry
mutation), including ones in which sends fail, the registry after the
broadcast equals the registry before it — `dead.append(ws)` is commented
out, so the final removal loop runs over an empty list. -/
theorem broadcast_preserves_registry :
    ∀ (env : Envelope) (fails : Handle → Bool) (conns : List Handle)
      (mids : List MidEvent), NoMut mids →
      ∃ r : BroadcastResult, broadcast env fails conns mids = Except.ok r ∧
        r.conns = conns := by
  intro env fails conns mids hm
  exact ⟨_, broadcast_noMut env fails conns mids hm, rfl⟩

/-- C8 witness: a broadcast in which every send raises still leaves the
two-handle registry exactly as it was. -/
theorem broadcast_preserves_registry_witness :
    ∃ r : BroadcastResult,
      broadcast ⟨1, "/ledger", 2, Option.some 3⟩ (fun _ => true)
          [⟨0⟩, ⟨1⟩] [] = Except.ok r ∧
      r.conns = [⟨0⟩, ⟨1⟩] := by
  exact broadcast_preserves_registry ⟨1, "/ledger", 2, Option.some 3⟩
    (fun _ => true) [⟨0⟩, ⟨1⟩] [] (by decide)

/-- C9: `_send_event(endpoint, data, req)` stamps the current time, wraps
the fields into a single envelope — whose `req` field is `None` exactly
when no request echo was supplied — and passes it to `_broadcast` exactly
once; with an empty registry the call completes without error and without
attempting any send. -/
theorem send_event_emits_once :
    ∀ (now : Nat) (ep : String) (v : Nat) (reqv : Option Nat)
      (fails : Handle → Bool) (conns : List Handle) (mids : List MidEvent),
      (send_event now ep (Payload.jsonSafe v) (reqv.map Payload.jsonSafe)
          fails conns mids).1 = [⟨now, ep, v, reqv⟩] ∧
      (send_event now ep (Payload.jsonSafe v) (reqv.map Payload.jsonSafe)
          fails [] mids).2 = Except.ok ⟨[], [], []⟩ := by
  intro now ep v reqv fails conns mids
  have henc : encodeReq (reqv.map Payload.jsonSafe) = Except.ok reqv := by
    cases reqv <;> simp [encodeReq, jsonable_encoder, Except.map]
  constructor
  · simp [send_event, jsonable_encoder, henc]
  · simp [send_event, jsonable_encoder, henc, broadcast, broadcastAux]

/-- C1 counterexample: fan-out is not concurrent and carries no per-handle
timeout.  In a two-handle registry where the second handle's send takes 1
time unit, the second delivery completes at time 1001 when the first
handle's send blocks for 1000 units but at time 1 when it does not: the
time at which the other K−1 subscribers are served depends on the blocking
subscriber's delay, refuting bounded-time independent delivery. -/
theorem broadcast_fanout_not_concurrent_cex :
    completionTime (blockingFirst 1000) [⟨0⟩, ⟨1⟩] ⟨1⟩ = 1001 ∧
    completionTime (blockingFirst 0) [⟨0⟩, ⟨1⟩] ⟨1⟩ = 1 ∧
    ¬ (∀ d : Nat, completionTime (blockingFirst d) [⟨0⟩, ⟨1⟩] ⟨1⟩ =
        completionTime (blockingFirst 0) [⟨0⟩, ⟨1⟩] ⟨1⟩) := by
  have e1 : completionTime (blockingFirst 1000) [⟨0⟩, ⟨1⟩] ⟨1⟩ = 1001 := by
    decide
  have e0 : completionTime (blockingFirst 0) [⟨0⟩, ⟨1⟩] ⟨1⟩ = 1 := by decide
  refine ⟨e1, e0, fun h => ?_⟩
  have h1 := h 1000
  rw [e1, e0] at h1
  exact absurd h1 (by decide)

/-- C1 (amended): the fan-out of `_broadcast` is a sequential loop that
awaits each send to completion before starting the next, with no timeout:
the delivery to a handle completes only after the summed full durations of
every handle before it in iteration order plus its own, so one subscriber
whose delivery blocks delays delivery to every later subscriber by the
whole blocking time. -/
theorem broadcast_sequential_completion :
    ∀ (dur : Handle → Nat) (pre post : List Handle) (h : Handle), h ∉ pre →
      completionTime dur (pre ++ h :: post) h = (pre.map dur).sum + dur h := by
  intro dur pre post h hp
  rw [completionTime, broadcastTimed, broadcastTimedAux_lookup dur h post pre 0 hp]
  simp

/-- C1 witness: with the first handle's send taking 5 units and the second
handle's taking 1, the second delivery completes at time 6 = 5 + 1. -/
theorem broadcast_sequential_completion_witness :
    completionTime (blockingFirst 5) [⟨0⟩, ⟨1⟩] ⟨1⟩ = 6 := by
  have h := broadcast_sequential_completion (blockingFirst 5) [⟨0⟩] [] ⟨1⟩
    (by decide)
  simpa [blockingFirst] using h

/-- C2 counterexample: the broadcast loop iterates the live `_connections`
set, not a snapshot.  With a single registered handle, a registration
(`Add`) arriving while the broadcast awaits that handle's send changes the
set's size, so the iteration raises
`RuntimeError: Set changed size during iteration` rather than completing:
mid-iteration mutation is observed, refuting the snapshot claim. -/
theorem broadcast_live_iteration_raises_cex :
    broadcast ⟨0, "x", 0, Option.none⟩ (fun _ => false) [⟨0⟩]
        [MidEvent.add ⟨1⟩] =
      Except.error "Set changed size during iteration" ∧
    ¬ ∃ r : BroadcastResult,
        broadcast ⟨0, "x", 0, Option.none⟩ (fun _ => false) [⟨0⟩]
          [MidEvent.add ⟨1⟩] = Except.ok r := by
  have h1 : broadcast ⟨0, "x", 0, Option.none⟩ (fun _ => false) [⟨0⟩]
      [MidEvent.add ⟨1⟩] = Except.error "Set changed size during iteration" :=
    rfl
  refine ⟨h1, fun hex => ?_⟩
  obtain ⟨r, hr⟩ := hex
  exact Except.noConfusion (h1.symm.trans hr)

/-- C2 (amended): `Add` inserts idempotently (no effect when present) and
`Remove` deletes when present with no error when absent; but a broadcast
iterates the live registry, not a snapshot: with no concurrent mutation
the iteration completes without error, while an `Add` arriving during a
send that changes the registry's size makes the iteration raise. -/
theorem registry_contract_live_iteration :
    (∀ (conns : List Handle) (h : Handle), h ∈ conns →
        addConn conns h = conns) ∧
    (∀ (conns : List Handle) (h : Handle), h ∈ addConn conns h) ∧
    (∀ (conns : List Handle) (h : Handle), h ∉ conns →
        discardConn conns h = conns) ∧
    (∀ (conns : List Handle) (h : Handle), h ∉ discardConn conns h) ∧
    (∀ (env : Envelope) (fails : Handle → Bool) (conns : List Handle)
        (mids : List MidEvent), NoMut mids →
        ∃ r : BroadcastResult, broadcast env fails conns mids = Except.ok r) ∧
    (broadcast ⟨0, "y", 0, Option.none⟩ (fun _ => false) [⟨2⟩]
        [MidEvent.add ⟨3⟩] =
      Except.error "Set changed size during iteration") := by
  refine ⟨fun conns h hm => by simp [addConn, hm],
          fun conns h => ?_, fun conns h hn => ?_, fun conns h => ?_,
          fun env fails conns mids hm =>
            ⟨_, broadcast_noMut env fails conns mids hm⟩, rfl⟩
  · by_cases hm : h ∈ conns <;> simp [addConn, hm]
  · exact List.filter_eq_self.mpr (fun x hx => by
      simp only [ne_eq, decide_eq_true_eq]
      exact fun hxh => hn (hxh ▸ hx))
  · intro hmem
    have := List.of_mem_filter hmem
    simp at this

/-- C2 witness: the registry contract applied at concrete inputs,
discharging the membership, non-membership and no-mutation hypotheses. -/
theorem registry_contract_live_iteration_witness :
    addConn [⟨0⟩] ⟨0⟩ = [⟨0⟩] ∧
    discardConn [⟨0⟩] ⟨1⟩ = [⟨0⟩] ∧
    ∃ r : BroadcastResult,
      broadcast ⟨0, "z", 0, Option.none⟩ (fun _ => false) [⟨0⟩] [] =
        Except.ok r := by
  exact ⟨registry_contract_live_iteration.1 [⟨0⟩] ⟨0⟩ (by decide),
         registry_contract_live_iteration.2.2.1 [⟨0⟩] ⟨1⟩ (by decide),
         registry_contract_live_iteration.2.2.2.2.1 ⟨0, "z", 0, Option.none⟩
           (fun _ => false) [⟨0⟩] [] (by decide)⟩

/-- C3 counterexample: at a call of `_send_event` whose payload
`jsonable_encoder` cannot convert, it is not the case that the failure is
caught and the broadcast still occurs: no envelope reaches `_broadcast`
(the invocation list is empty, not a singleton) and the call's outcome is
the encoder's exception. -/
theorem send_event_conversion_failure_cex :
    ¬ ((send_event 0 "/ledger" Payload.unconvertible Option.none
          (fun _ => false) [⟨0⟩] []).1.length = 1 ∧
       (send_event 0 "/ledger" Payload.unconvertible Option.none
          (fun _ => false) [⟨0⟩] []).2 ≠
         Except.error "ValueError: Object not JSON serializable") :=
  fun hcl => absurd hcl.1 (by decide)

/-- C3 (amended): a payload `_send_event` cannot convert is not caught:
`jsonable_encoder`'s exception propagates to the emitting caller and no
broadcast occurs — no envelope, with an error marker or otherwise, is
handed to `_broadcast`.  The same holds when the optional request echo is
the unconvertible part. -/
theorem send_event_conversion_failure_propagates :
    ∀ (now : Nat) (ep : String) (req : Option Payload) (v : Nat)
      (fails : Handle → Bool) (conns : List Handle) (mids : List MidEvent),
      send_event now ep Payload.unconvertible req fails conns mids =
        ([], Except.error "ValueError: Object not JSON serializable") ∧
      send_event now ep (Payload.jsonSafe v)
          (Option.some Payload.unconvertible) fails conns mids =
        ([], Except.error "ValueError: Object not JSON serializable") := by
  intro now ep req v fails conns mids
  constructor
  · simp [send_event, jsonable_encoder]
  · simp [send_event, jsonable_encoder, encodeReq, Except.map]
